import Mathlib

/-!
Verification of the resilience layer of the stock-quote CLI: the pure
circuit-breaker state machine (`circuit-breaker-state.ts`), the breaker
shell (`circuit-breaker.ts`), and the fallback orchestrator
(`stock-api-fallback.ts`), shallowly embedded in Lean.

Timestamps, durations, failure counts and HTTP status codes are TypeScript
`number`s used only at integral values; they are modelled as `Int`.
-/

namespace StockCli

/-- Circuit breaker state (`CircuitState` in `circuit-breaker-state.ts`):
`Closed` counts consecutive trippable failures, `Open` stores the timestamp
at which the circuit opened, `HalfOpen` permits a probe call. -/
inductive CircuitState where
  | Closed (failures : Int)
  | Open (openedAt : Int)
  | HalfOpen
deriving DecidableEq, Repr

/-- Definition `initialState` from `circuit-breaker-state.ts`. -/
def initialState : CircuitState := CircuitState.Closed 0

/-- Definition `GateDecision` from `circuit-breaker-state.ts`. -/
inductive GateDecision where
  | allow
  | reject
deriving DecidableEq, Repr

/-- Definition `gate` from `circuit-breaker-state.ts`: decide whether to allow a
request through, and the resulting state. -/
def gate (state : CircuitState) (now resetMs : Int) :
    GateDecision × CircuitState :=
  match state with
  | CircuitState.Closed _ => (GateDecision.allow, state)
  | CircuitState.HalfOpen => (GateDecision.allow, state)
  | CircuitState.Open openedAt =>
      if now - openedAt ≥ resetMs then (GateDecision.allow, CircuitState.HalfOpen)
      else (GateDecision.reject, state)

/-- Definition `onSuccess` from `circuit-breaker-state.ts`: state after a successful
execution. -/
def onSuccess : CircuitState := CircuitState.Closed 0

/-- Definition `onTrippableFailure` from `circuit-breaker-state.ts`: state after a
trippable failure. -/
def onTrippableFailure (state : CircuitState) (now maxFailures : Int) :
    CircuitState :=
  match state with
  | CircuitState.HalfOpen => CircuitState.Open now
  | CircuitState.Closed failures =>
      let next := failures + 1
      if next ≥ maxFailures then CircuitState.Open now else CircuitState.Closed next
  | CircuitState.Open _ => state

/-- Claim C2: for every Closed state and for HalfOpen, and every `now` and
`resetMs`, `gate` allows with the state unchanged; for `Open openedAt` it
rejects with the state unchanged iff `now - openedAt < resetMs`, and allows
with next state HalfOpen iff `now - openedAt ≥ resetMs`. -/
theorem gate_spec (now resetMs : Int) :
    (∀ f : Int, gate (CircuitState.Closed f) now resetMs
        = (GateDecision.allow, CircuitState.Closed f))
    ∧ gate CircuitState.HalfOpen now resetMs
        = (GateDecision.allow, CircuitState.HalfOpen)
    ∧ ∀ openedAt : Int,
        (gate (CircuitState.Open openedAt) now resetMs
            = (GateDecision.reject, CircuitState.Open openedAt)
          ↔ now - openedAt < resetMs)
        ∧ (gate (CircuitState.Open openedAt) now resetMs
            = (GateDecision.allow, CircuitState.HalfOpen)
          ↔ now - openedAt ≥ resetMs) := by
  refine ⟨fun f => rfl, rfl, fun openedAt => ⟨?_, ?_⟩⟩
  · show (if now - openedAt ≥ resetMs then (GateDecision.allow, CircuitState.HalfOpen)
      else (GateDecision.reject, CircuitState.Open openedAt)) = _ ↔ _
    split_ifs with h
    · simp only [Prod.mk.injEq]
      constructor
      · rintro ⟨h1, -⟩; cases h1
      · intro hlt; omega
    · simpa using by omega
  · show (if now - openedAt ≥ resetMs then (GateDecision.allow, CircuitState.HalfOpen)
      else (GateDecision.reject, CircuitState.Open openedAt)) = _ ↔ _
    split_ifs with h
    · simpa using h
    · simp only [Prod.mk.injEq]
      constructor
      · rintro ⟨-, h2⟩; cases h2
      · intro hge; omega

/-- Witness for claim C2: the spec's own example, `Open 1000` with `resetMs = 10000`
rejects at `now = 10500` and allows to HalfOpen at `now = 11000`. -/
theorem gate_spec_witness :
    gate (CircuitState.Open 1000) 10500 10000
      = (GateDecision.reject, CircuitState.Open 1000)
    ∧ gate (CircuitState.Open 1000) 11000 10000
      = (GateDecision.allow, CircuitState.HalfOpen) :=
  ⟨((gate_spec 10500 10000).2.2 1000).1.mpr (by decide),
   ((gate_spec 11000 10000).2.2 1000).2.mpr (by decide)⟩

/-- Claim C3: for every `now` and `maxFailures`, a trippable failure maps
HalfOpen to `Open now`; `Closed f` to `Open now` when `f + 1 ≥ maxFailures`
and to `Closed (f + 1)` otherwise; and leaves an Open state unchanged. -/
theorem onTrippableFailure_spec (now maxFailures : Int) :
    onTrippableFailure CircuitState.HalfOpen now maxFailures
      = CircuitState.Open now
    ∧ (∀ f : Int, onTrippableFailure (CircuitState.Closed f) now maxFailures
        = if f + 1 ≥ maxFailures then CircuitState.Open now
          else CircuitState.Closed (f + 1))
    ∧ ∀ t : Int, onTrippableFailure (CircuitState.Open t) now maxFailures
        = CircuitState.Open t :=
  ⟨rfl, fun _ => rfl, fun _ => rfl⟩

/-- The domain error taxonomy (`StockApiError` in `stock-api.ts`): a closed
set of tagged errors. HTTP statuses are modelled as `Int`. -/
inductive StockApiError where
  | NetworkError (message : String)
  | HttpError (status : Int)
  | ParseError (message : String)
  | SymbolNotFound (symbol : String)
  | ServiceError (message : String)
deriving DecidableEq, Repr

/-- The error channel of the breaker's `execute` (`E | CircuitOpenError` in
`circuit-breaker.ts`, with `CircuitOpenError` from `circuit-breaker.ts`):
either an error of the wrapped operation, or the breaker's own rejection
signal. -/
inductive BreakerError (ε : Type) where
  | op (e : ε)
  | CircuitOpenError (message : String)
deriving DecidableEq, Repr

/-- Definition `isTrippable` from `stock-api-fallback.ts`, defined on
`StockApiError | CircuitOpenError` (here `BreakerError StockApiError`):
errors that indicate the provider is unhealthy. `SymbolNotFound` is not
trippable, nor is a client-class `HttpError` (status below 500). -/
def isTrippable (e : BreakerError StockApiError) : Bool :=
  match e with
  | BreakerError.op (StockApiError.NetworkError _) => true
  | BreakerError.op (StockApiError.ParseError _) => true
  | BreakerError.op (StockApiError.ServiceError _) => true
  | BreakerError.CircuitOpenError _ => true
  | BreakerError.op (StockApiError.HttpError status) => status ≥ 500
  | BreakerError.op (StockApiError.SymbolNotFound _) => false

/-- One sequential call to the breaker's `execute` (`circuit-breaker.ts`),
with the `Ref` cell passed explicitly: read `now` from the clock, gate the
request atomically, reject with `CircuitOpenError "Circuit is open"` when
the gate says reject, otherwise run the wrapped operation and record the
outcome (`onSuccess` on success; `onTrippableFailure` on a failure the
`isTrippable` predicate classifies as trippable; no state change
otherwise). The wrapped operation is a thunk, forced only on the allow
path, mirroring that the underlying effect runs only after the gate
allows. -/
def execute {ε α : Type} (isTrip : ε → Bool) (maxFailures resetMs now : Int)
    (op : Unit → Except ε α) (state : CircuitState) :
    Except (BreakerError ε) α × CircuitState :=
  let gated := gate state now resetMs
  if gated.1 = GateDecision.reject then
    (Except.error (BreakerError.CircuitOpenError "Circuit is open"), gated.2)
  else
    match op () with
    | Except.ok a => (Except.ok a, onSuccess)
    | Except.error e =>
        if isTrip e then
          (Except.error (BreakerError.op e),
           onTrippableFailure gated.2 now maxFailures)
        else (Except.error (BreakerError.op e), gated.2)

/-- Claim C4: whenever the gate decides reject — the state is `Open openedAt` and
`now - openedAt < resetMs` — `execute` fails with
`CircuitOpenError "Circuit is open"` and leaves the state cell unchanged;
since the equation holds for every operation `op`, the wrapped operation is
never invoked. -/
theorem execute_reject_spec {ε α : Type} (isTrip : ε → Bool)
    (maxFailures resetMs now openedAt : Int) (op : Unit → Except ε α)
    (h : now - openedAt < resetMs) :
    execute isTrip maxFailures resetMs now op (CircuitState.Open openedAt)
      = (Except.error (BreakerError.CircuitOpenError "Circuit is open"),
         CircuitState.Open openedAt) := by
  have hel : ¬ now - openedAt ≥ resetMs := by omega
  simp [execute, gate, hel]

/-- Witness for claim C4: a breaker opened at time 0 with a 30000 ms reset rejects at
`now = 10`, for a concrete operation that would succeed. -/
theorem execute_reject_spec_witness :
    execute (fun _ : Unit => true) 3 30000 10
        (fun _ => (Except.ok 0 : Except Unit Int)) (CircuitState.Open 0)
      = (Except.error (BreakerError.CircuitOpenError "Circuit is open"),
         CircuitState.Open 0) :=
  execute_reject_spec (fun _ : Unit => true) 3 30000 10 0
    (fun _ => (Except.ok 0 : Except Unit Int)) (by decide)

/-- Claim C9: the function `onSuccess` is `Closed 0` unconditionally, and whenever the gate
allows and the wrapped operation succeeds with `a`, `execute` returns `a`
unchanged and sets the state cell to `Closed 0`, for every prior state. -/
theorem execute_success_spec :
    onSuccess = CircuitState.Closed 0
    ∧ ∀ {ε α : Type} (isTrip : ε → Bool) (maxFailures resetMs now : Int)
        (op : Unit → Except ε α) (state : CircuitState) (a : α),
        (gate state now resetMs).1 = GateDecision.allow →
        op () = Except.ok a →
        execute isTrip maxFailures resetMs now op state
          = (Except.ok a, CircuitState.Closed 0) := by
  refine ⟨rfl, ?_⟩
  intro ε α isTrip maxFailures resetMs now op state a hallow hop
  cases state with
  | Closed f => simp [execute, gate, hop, onSuccess]
  | HalfOpen => simp [execute, gate, hop, onSuccess]
  | Open t =>
      by_cases hel : now - t ≥ resetMs
      · simp [execute, gate, hel, hop, onSuccess]
      · exfalso
        simp [gate, hel] at hallow

/-- Witness for claim C9: from the HalfOpen state a succeeding probe resets the
breaker to `Closed 0` and returns the result unchanged. -/
theorem execute_success_spec_witness :
    execute (fun _ : Unit => true) 3 30000 10
        (fun _ => (Except.ok 7 : Except Unit Int)) CircuitState.HalfOpen
      = (Except.ok 7, CircuitState.Closed 0) :=
  execute_success_spec.2 (fun _ : Unit => true) 3 30000 10
    (fun _ => (Except.ok 7 : Except Unit Int)) CircuitState.HalfOpen 7 rfl rfl

/-- Counterexample for claim C8: the claim says every call whose wrapped operation
fails non-trippably leaves the breaker's state cell unchanged, but when the
prior state is `Open 0` with an elapsed reset timeout (`now = 10`,
`resetMs = 10`) the gate itself moves the cell to HalfOpen, and the
non-trippable failure (`SymbolNotFound`, not trippable per `isTrippable`)
then leaves it there: the cell ends at HalfOpen, not at the prior
`Open 0`. -/
theorem execute_nonTrippable_counterexample :
    (execute (fun e => isTrippable (BreakerError.op e)) 3 10 10
        (fun _ => (Except.error (StockApiError.SymbolNotFound "NOPE")
          : Except StockApiError Unit))
        (CircuitState.Open 0)).2
      = CircuitState.HalfOpen
    ∧ (execute (fun e => isTrippable (BreakerError.op e)) 3 10 10
        (fun _ => (Except.error (StockApiError.SymbolNotFound "NOPE")
          : Except StockApiError Unit))
        (CircuitState.Open 0)).2
      ≠ CircuitState.Open 0 := by
  constructor
  · rfl
  · intro h
    cases h

/-- Claim C8 as amended: when the wrapped operation fails with an error `e` that
`isTrippable` classifies as non-trippable, the post-operation handling
leaves the state cell exactly where the gate put it — the failure itself is
invisible to the breaker — and the original error `e` is propagated
unchanged, never replaced by a synthetic error. In particular the whole
call leaves the cell unchanged whenever the prior state is Closed or
HalfOpen; only the gate's own `Open → HalfOpen` move can change the cell on
such a call. -/
theorem execute_nonTrippable_spec {ε α : Type} (isTrip : ε → Bool)
    (maxFailures resetMs now : Int) (op : Unit → Except ε α)
    (state : CircuitState) (e : ε)
    (hallow : (gate state now resetMs).1 = GateDecision.allow)
    (hop : op () = Except.error e) (htrip : isTrip e = false) :
    execute isTrip maxFailures resetMs now op state
      = (Except.error (BreakerError.op e), (gate state now resetMs).2)
    ∧ (∀ f : Int, state = CircuitState.Closed f →
        (execute isTrip maxFailures resetMs now op state).2 = state)
    ∧ (state = CircuitState.HalfOpen →
        (execute isTrip maxFailures resetMs now op state).2 = state) := by
  have hmain : execute isTrip maxFailures resetMs now op state
      = (Except.error (BreakerError.op e), (gate state now resetMs).2) := by
    cases state with
    | Closed f => simp [execute, gate, hop, htrip]
    | HalfOpen => simp [execute, gate, hop, htrip]
    | Open t =>
        by_cases hel : now - t ≥ resetMs
        · simp [execute, gate, hel, hop, htrip]
        · exfalso
          simp [gate, hel] at hallow
  refine ⟨hmain, ?_, ?_⟩
  · intro f hstate
    subst hstate
    rw [hmain]
    rfl
  · intro hstate
    subst hstate
    rw [hmain]
    rfl

/-- Witness for claim C8 as amended: a non-trippable failure (`HttpError 404`) from
`Closed 0` leaves the state at `Closed 0` and propagates `HttpError 404`
unchanged. -/
theorem execute_nonTrippable_spec_witness :
    execute (fun e => isTrippable (BreakerError.op e)) 3 30000 10
        (fun _ => (Except.error (StockApiError.HttpError 404)
          : Except StockApiError Unit))
        (CircuitState.Closed 0)
      = (Except.error (BreakerError.op (StockApiError.HttpError 404)),
         CircuitState.Closed 0) :=
  (execute_nonTrippable_spec (fun e => isTrippable (BreakerError.op e))
    3 30000 10
    (fun _ => (Except.error (StockApiError.HttpError 404)
      : Except StockApiError Unit))
    (CircuitState.Closed 0) (StockApiError.HttpError 404)
    rfl rfl (by decide)).1

/-- Claim C6: whenever a call to `execute` leaves the state cell at `Open u`, the
cell was already at `Open u` before the call (no transition happened, i.e.
a gate rejection on an already-open circuit) or `u = now`, the clock
timestamp read at the start of the call under which the trippable failure
was recorded; the same holds of a single `onTrippableFailure` transition.
So `openedAt` is written only on the transition into Open, and carries the
timestamp at which the threshold was crossed or the half-open probe
failed. -/
theorem openedAt_spec :
    (∀ (state : CircuitState) (now maxFailures u : Int),
        onTrippableFailure state now maxFailures = CircuitState.Open u →
        state = CircuitState.Open u ∨ u = now)
    ∧ ∀ {ε α : Type} (isTrip : ε → Bool) (maxFailures resetMs now : Int)
        (op : Unit → Except ε α) (state : CircuitState) (u : Int),
        (execute isTrip maxFailures resetMs now op state).2
          = CircuitState.Open u →
        state = CircuitState.Open u ∨ u = now := by
  have hstep : ∀ (state : CircuitState) (now maxFailures u : Int),
      onTrippableFailure state now maxFailures = CircuitState.Open u →
      state = CircuitState.Open u ∨ u = now := by
    intro state now maxFailures u h
    cases state with
    | HalfOpen =>
        right
        cases h
        rfl
    | Closed f =>
        right
        unfold onTrippableFailure at h
        simp only at h
        split_ifs at h
        cases h
        rfl
    | Open t =>
        left
        cases h
        rfl
  refine ⟨hstep, ?_⟩
  intro ε α isTrip maxFailures resetMs now op state u h
  cases state with
  | Closed f =>
      rcases hop : op () with e | a
      · by_cases htrip : isTrip e = true
        · simp [execute, gate, hop, htrip] at h
          exact hstep _ _ _ _ h
        · simp [execute, gate, hop, htrip] at h
      · simp [execute, gate, hop, onSuccess] at h
  | HalfOpen =>
      rcases hop : op () with e | a
      · by_cases htrip : isTrip e = true
        · simp [execute, gate, hop, htrip] at h
          rcases hstep _ _ _ _ h with h1 | h1
          · cases h1
          · right; exact h1
        · simp [execute, gate, hop, htrip] at h
      · simp [execute, gate, hop, onSuccess] at h
  | Open t =>
      by_cases hel : now - t ≥ resetMs
      · rcases hop : op () with e | a
        · by_cases htrip : isTrip e = true
          · simp [execute, gate, hel, hop, htrip] at h
            rcases hstep _ _ _ _ h with h1 | h1
            · cases h1
            · right; exact h1
          · simp [execute, gate, hel, hop, htrip] at h
        · simp [execute, gate, hel, hop, onSuccess] at h
      · simp [execute, gate, hel] at h
        left
        rw [h]

/-- Witness for claim C6: a trippable failure taking `Closed 2` over the threshold
`maxFailures = 3` at `now = 42` opens the circuit, and by the theorem its
`openedAt` is the failure timestamp (the prior state was Closed, so the
first disjunct is impossible). -/
theorem openedAt_spec_witness :
    CircuitState.Closed 2 = CircuitState.Open 42 ∨ (42 : Int) = 42 :=
  openedAt_spec.1 (CircuitState.Closed 2) 42 3 42 (by decide)

/-- Definition `StockQuote` from `domain.ts`. The numeric payloads are never inspected
by the resilience layer; TypeScript `number` fields are modelled as
`Float`. -/
structure StockQuote where
  symbol : String
  price : Float
  change : Float
  changePercent : Float
  currency : String
  timestamp : Float

/-- Definition `NamedProvider` from `stock-api-fallback.ts`: a provider name for
diagnostics together with its (already wrapped) quote operation. Within
one `tryProviders` call each provider is consulted at most once, so the
operation is modelled as the outcome it produces for the given symbol. -/
structure NamedProvider where
  name : String
  getQuote : String → Except StockApiError StockQuote

/-- The recursive `loop` inside `tryProviders` (`stock-api-fallback.ts`),
recursing on the providers remaining from the current index and carrying
the last error. Alongside the result it returns the names of the
providers actually consulted, in order — the embedding of the per-provider
`Console.debug`/`getQuote` call sequence of the Effect code. -/
def tryProvidersFrom (symbol : String) :
    List NamedProvider → StockApiError →
    Except StockApiError StockQuote × List String
  | [], lastError => (Except.error lastError, [])
  | p :: rest, _ =>
      match p.getQuote symbol with
      | Except.ok q => (Except.ok q, [p.name])
      | Except.error e =>
          if isTrippable (BreakerError.op e) then
            ((tryProvidersFrom symbol rest e).1,
             p.name :: (tryProvidersFrom symbol rest e).2)
          else (Except.error e, [p.name])

/-- Definition `tryProviders` from `stock-api-fallback.ts`: start the loop at index 0
with last error `ServiceError "No providers configured"`. -/
def tryProviders (providers : List NamedProvider) (symbol : String) :
    Except StockApiError StockQuote × List String :=
  tryProvidersFrom symbol providers
    (StockApiError.ServiceError "No providers configured")

/-- The providers consulted by the loop are always an initial segment of
the provider list, in order. -/
theorem tryProvidersFrom_inOrder (symbol : String) :
    ∀ (providers : List NamedProvider) (lastError : StockApiError),
      (tryProvidersFrom symbol providers lastError).2
        = (providers.take
            (tryProvidersFrom symbol providers lastError).2.length).map
            NamedProvider.name := by
  intro providers
  induction providers with
  | nil => intro lastError; rfl
  | cons p rest ih =>
      intro lastError
      rcases hq : p.getQuote symbol with e | q
      · by_cases htrip : isTrippable (BreakerError.op e) = true
        · have hunf : tryProvidersFrom symbol (p :: rest) lastError
              = ((tryProvidersFrom symbol rest e).1,
                 p.name :: (tryProvidersFrom symbol rest e).2) := by
            simp [tryProvidersFrom, hq, htrip]
          rw [hunf]
          simp only [List.length_cons, List.take_succ_cons, List.map_cons]
          rw [← ih e]
        · have hunf : tryProvidersFrom symbol (p :: rest) lastError
              = (Except.error e, [p.name]) := by
            simp [tryProvidersFrom, hq, htrip]
          rw [hunf]
          rfl
      · have hunf : tryProvidersFrom symbol (p :: rest) lastError
            = (Except.ok q, [p.name]) := by
          simp [tryProvidersFrom, hq]
        rw [hunf]
        rfl

/-- Claim C1: `tryProviders` visits providers strictly in order starting at index
0 — the consulted names are always the initial segment of the list — and,
whatever last error is being carried: on the head provider's success the
loop returns that result immediately with no later provider consulted; on
a trippable failure it remembers that error as the new last error and
advances to the rest of the list; on a non-trippable failure it propagates
that error immediately with no later provider consulted. -/
theorem tryProviders_spec (symbol : String) :
    (∀ providers : List NamedProvider,
      (tryProviders providers symbol).2
        = (providers.take (tryProviders providers symbol).2.length).map
            NamedProvider.name)
    ∧ ∀ (p : NamedProvider) (rest : List NamedProvider)
        (lastError : StockApiError),
        (∀ q : StockQuote, p.getQuote symbol = Except.ok q →
          tryProvidersFrom symbol (p :: rest) lastError
            = (Except.ok q, [p.name]))
        ∧ (∀ e : StockApiError, p.getQuote symbol = Except.error e →
            isTrippable (BreakerError.op e) = true →
            tryProvidersFrom symbol (p :: rest) lastError
              = ((tryProvidersFrom symbol rest e).1,
                 p.name :: (tryProvidersFrom symbol rest e).2))
        ∧ (∀ e : StockApiError, p.getQuote symbol = Except.error e →
            isTrippable (BreakerError.op e) = false →
            tryProvidersFrom symbol (p :: rest) lastError
              = (Except.error e, [p.name])) := by
  refine ⟨fun providers => tryProvidersFrom_inOrder symbol providers _,
    fun p rest lastError => ⟨?_, ?_, ?_⟩⟩
  · intro q hq
    simp [tryProvidersFrom, hq]
  · intro e hq htrip
    simp [tryProvidersFrom, hq, htrip]
  · intro e hq htrip
    simp [tryProvidersFrom, hq, htrip]

/-- A sample quote for concrete instantiations. -/
def sampleQuote : StockQuote :=
  { symbol := "AAPL", price := 225.3, change := 3.45, changePercent := 1.55,
    currency := "USD", timestamp := 0 }

/-- A provider that always fails with a trippable `NetworkError`. -/
def provNet : NamedProvider :=
  { name := "A",
    getQuote := fun _ => Except.error (StockApiError.NetworkError "down") }

/-- A provider that always succeeds. -/
def provOk : NamedProvider :=
  { name := "B", getQuote := fun _ => Except.ok sampleQuote }

/-- A provider that always fails with a trippable `ServiceError`. -/
def provSvc : NamedProvider :=
  { name := "C",
    getQuote := fun _ => Except.error (StockApiError.ServiceError "b down") }

/-- Witness for claim C1: a succeeding head provider returns its quote immediately,
consulting only itself. -/
theorem tryProviders_spec_witness :
    tryProvidersFrom "AAPL" [provOk, provNet]
        (StockApiError.ServiceError "No providers configured")
      = (Except.ok sampleQuote, ["B"]) :=
  ((tryProviders_spec "AAPL").2 provOk [provNet]
    (StockApiError.ServiceError "No providers configured")).1 sampleQuote rfl

/-- When every provider before the last one fails trippably and the last
provider itself fails trippably, the loop exhausts the list and fails with
the last provider's error, whatever last error it was carrying at the
start. -/
theorem tryProvidersFrom_exhausted (symbol : String) (p : NamedProvider)
    (e : StockApiError) (hp : p.getQuote symbol = Except.error e)
    (htrip : isTrippable (BreakerError.op e) = true) :
    ∀ ps : List NamedProvider,
      (∀ q ∈ ps, ∃ e', q.getQuote symbol = Except.error e'
          ∧ isTrippable (BreakerError.op e') = true) →
      ∀ lastError : StockApiError,
        (tryProvidersFrom symbol (ps ++ [p]) lastError).1 = Except.error e := by
  intro ps
  induction ps with
  | nil =>
      intro _ lastError
      show (tryProvidersFrom symbol (p :: []) lastError).1 = _
      simp [tryProvidersFrom, hp, htrip]
  | cons r rs ih =>
      intro hall lastError
      obtain ⟨e', hr, htrip'⟩ := hall r (by simp)
      have hstep : tryProvidersFrom symbol ((r :: rs) ++ [p]) lastError
          = ((tryProvidersFrom symbol (rs ++ [p]) e').1,
             r.name :: (tryProvidersFrom symbol (rs ++ [p]) e').2) := by
        simp only [List.cons_append]
        simp [tryProvidersFrom, hr, htrip']
      rw [hstep]
      exact ih (fun q hq => hall q (by simp [hq])) e'

/-- Claim C5: calling `tryProviders` with an empty provider list fails with
`ServiceError "No providers configured"` (and consults nobody); when the
list is non-empty and every provider fails trippably, the loop exhausts
the list and fails with the error of the last provider tried — the initial
last-error value is never surfaced for a non-empty list, since the result
is pinned to the last provider's own error. -/
theorem tryProviders_exhaustion_spec :
    (∀ symbol : String, tryProviders [] symbol
        = (Except.error (StockApiError.ServiceError "No providers configured"),
           []))
    ∧ ∀ (symbol : String) (ps : List NamedProvider) (p : NamedProvider)
        (e : StockApiError),
        (∀ q ∈ ps, ∃ e', q.getQuote symbol = Except.error e'
            ∧ isTrippable (BreakerError.op e') = true) →
        p.getQuote symbol = Except.error e →
        isTrippable (BreakerError.op e) = true →
        (tryProviders (ps ++ [p]) symbol).1 = Except.error e := by
  refine ⟨fun symbol => rfl, ?_⟩
  intro symbol ps p e hall hp htrip
  exact tryProvidersFrom_exhausted symbol p e hp htrip ps hall _

/-- Witness for claim C5: the spec's exhaustion example — a `NetworkError` provider
followed by a `ServiceError "b down"` provider yields
`ServiceError "b down"`, the error of the last provider tried. -/
theorem tryProviders_exhaustion_spec_witness :
    (tryProviders [provNet, provSvc] "X").1
      = Except.error (StockApiError.ServiceError "b down") := by
  have hall : ∀ q ∈ [provNet], ∃ e',
      q.getQuote "X" = Except.error e'
      ∧ isTrippable (BreakerError.op e') = true := by
    intro q hq
    rw [List.mem_singleton.mp hq]
    exact ⟨StockApiError.NetworkError "down", rfl, by decide⟩
  exact tryProviders_exhaustion_spec.2 "X" [provNet] provSvc
    (StockApiError.ServiceError "b down") hall rfl (by decide)

/-- The possible outcomes of one underlying provider call as seen by the
per-call timeout combinator in `withBreaker` (`stock-api-fallback.ts`): a
quote, a domain error, or expiry of the fixed per-call timeout. -/
inductive ProviderOutcome where
  | ok (q : StockQuote)
  | err (e : StockApiError)
  | timeout

/-- The `Effect.timeoutFail` wrapping in `withBreaker`
(`stock-api-fallback.ts`): on expiry of the per-call timeout, synthesize
`NetworkError "<name>: request timed out"`; otherwise pass the outcome
through. -/
def timeoutFail (name : String) :
    ProviderOutcome → Except StockApiError StockQuote
  | ProviderOutcome.ok q => Except.ok q
  | ProviderOutcome.err e => Except.error e
  | ProviderOutcome.timeout =>
      Except.error
        (StockApiError.NetworkError (name ++ ": request timed out"))

/-- The `Effect.mapError` at the end of `withBreaker`
(`stock-api-fallback.ts`): remap the breaker-internal `CircuitOpenError`
to `ServiceError "<name>: circuit open"`; every other error passes through
unchanged. -/
def mapCircuitOpen (name : String) :
    Except (BreakerError StockApiError) StockQuote →
    Except StockApiError StockQuote
  | Except.ok q => Except.ok q
  | Except.error (BreakerError.op e) => Except.error e
  | Except.error (BreakerError.CircuitOpenError _) =>
      Except.error (StockApiError.ServiceError (name ++ ": circuit open"))

/-- Definition `withBreaker` from `stock-api-fallback.ts`: run one provider call under
the per-call timeout, through that provider's breaker, then remap
`CircuitOpenError` at the boundary so the fallback loop only sees
`StockApiError`. -/
def withBreaker (name : String) (isTrip : StockApiError → Bool)
    (maxFailures resetMs now : Int) (outcome : ProviderOutcome)
    (state : CircuitState) :
    Except StockApiError StockQuote × CircuitState :=
  ((mapCircuitOpen name
      (execute isTrip maxFailures resetMs now
        (fun _ => timeoutFail name outcome) state).1),
   (execute isTrip maxFailures resetMs now
      (fun _ => timeoutFail name outcome) state).2)

/-- Claim C7: the per-provider wrapping keeps the orchestration loop inside the
closed `StockApiError` taxonomy — indeed `withBreaker`'s error channel has
type `StockApiError`, which has no CircuitOpenError variant, so no breaker
rejection can reach `tryProviders` or `getQuote`. Concretely: a breaker
rejection surfaces as `ServiceError "<name>: circuit open"`; a per-call
timeout expiry surfaces as `NetworkError "<name>: request timed out"`
whenever the gate allows the call; and whatever the breaker returns, an
inner `CircuitOpenError` is always remapped by the boundary `mapError`. -/
theorem withBreaker_spec (name : String) (isTrip : StockApiError → Bool)
    (maxFailures resetMs now : Int) :
    (∀ (openedAt : Int) (outcome : ProviderOutcome),
        now - openedAt < resetMs →
        (withBreaker name isTrip maxFailures resetMs now outcome
            (CircuitState.Open openedAt)).1
          = Except.error
              (StockApiError.ServiceError (name ++ ": circuit open")))
    ∧ (∀ state : CircuitState,
        (gate state now resetMs).1 = GateDecision.allow →
        (withBreaker name isTrip maxFailures resetMs now
            ProviderOutcome.timeout state).1
          = Except.error
              (StockApiError.NetworkError (name ++ ": request timed out")))
    ∧ ∀ m : String,
        mapCircuitOpen name
            (Except.error (BreakerError.CircuitOpenError m))
          = Except.error
              (StockApiError.ServiceError (name ++ ": circuit open")) := by
  refine ⟨?_, ?_, fun m => rfl⟩
  · intro openedAt outcome h
    have hel : ¬ now - openedAt ≥ resetMs := by omega
    simp [withBreaker, execute, gate, hel, mapCircuitOpen]
  · intro state hallow
    cases state with
    | Closed f =>
        by_cases htrip :
            isTrip (StockApiError.NetworkError (name ++ ": request timed out"))
              = true
        · simp [withBreaker, execute, gate, timeoutFail, mapCircuitOpen, htrip]
        · simp [withBreaker, execute, gate, timeoutFail, mapCircuitOpen, htrip]
    | HalfOpen =>
        by_cases htrip :
            isTrip (StockApiError.NetworkError (name ++ ": request timed out"))
              = true
        · simp [withBreaker, execute, gate, timeoutFail, mapCircuitOpen, htrip]
        · simp [withBreaker, execute, gate, timeoutFail, mapCircuitOpen, htrip]
    | Open t =>
        by_cases hel : now - t ≥ resetMs
        · by_cases htrip :
              isTrip (StockApiError.NetworkError (name ++ ": request timed out"))
                = true
          · simp [withBreaker, execute, gate, timeoutFail, mapCircuitOpen,
              hel, htrip]
          · simp [withBreaker, execute, gate, timeoutFail, mapCircuitOpen,
              hel, htrip]
        · exfalso
          simp [gate, hel] at hallow

/-- Witness for claim C7: with the real `isTrippable` predicate, a breaker whose
circuit opened at time 0 (reset 30000 ms) surfaces
`ServiceError "yahoo: circuit open"` at `now = 10`, and a timed-out call
from a closed breaker surfaces `NetworkError "yahoo: request timed out"`. -/
theorem withBreaker_spec_witness :
    (withBreaker "yahoo" (fun e => isTrippable (BreakerError.op e)) 3 30000 10
        (ProviderOutcome.ok sampleQuote) (CircuitState.Open 0)).1
      = Except.error
          (StockApiError.ServiceError ("yahoo" ++ ": circuit open"))
    ∧ (withBreaker "yahoo" (fun e => isTrippable (BreakerError.op e)) 3 30000
        10 ProviderOutcome.timeout (CircuitState.Closed 0)).1
      = Except.error
          (StockApiError.NetworkError ("yahoo" ++ ": request timed out")) :=
  ⟨(withBreaker_spec "yahoo" (fun e => isTrippable (BreakerError.op e))
      3 30000 10).1 0 (ProviderOutcome.ok sampleQuote) (by decide),
   (withBreaker_spec "yahoo" (fun e => isTrippable (BreakerError.op e))
      3 30000 10).2.1 (CircuitState.Closed 0) rfl⟩

/-- One step of the pure state machine at a fixed `maxFailures`
configuration: an application of `gate` (with arbitrary `now` and
`resetMs`, keeping the resulting state), of `onSuccess`, or of
`onTrippableFailure` (with arbitrary `now`). -/
inductive BreakerStep (maxFailures : Int) : CircuitState → CircuitState → Prop where
  | gated (s : CircuitState) (now resetMs : Int) :
      BreakerStep maxFailures s (gate s now resetMs).2
  | succeeded (s : CircuitState) :
      BreakerStep maxFailures s onSuccess
  | failed (s : CircuitState) (now : Int) :
      BreakerStep maxFailures s (onTrippableFailure s now maxFailures)

/-- A state reachable from `initialState` by a finite sequence of state
machine steps. -/
def ReachableState (maxFailures : Int) (s : CircuitState) : Prop :=
  Relation.ReflTransGen (BreakerStep maxFailures) initialState s

/-- One machine step preserves the failure-count bound on Closed states. -/
theorem closedBound_preserved (maxFailures : Int) (hmax : 1 ≤ maxFailures)
    (s s' : CircuitState) (hstep : BreakerStep maxFailures s s')
    (hs : ∀ f : Int, s = CircuitState.Closed f → 0 ≤ f ∧ f < maxFailures) :
    ∀ f : Int, s' = CircuitState.Closed f → 0 ≤ f ∧ f < maxFailures := by
  cases hstep with
  | gated now resetMs =>
      intro f hf
      cases s with
      | Closed g =>
          have h1 : CircuitState.Closed g = CircuitState.Closed f := hf
          cases h1
          exact hs f rfl
      | HalfOpen =>
          exact absurd hf (by simp [gate])
      | Open t =>
          simp only [gate] at hf
          split_ifs at hf
  | succeeded =>
      intro f hf
      have h1 : CircuitState.Closed 0 = CircuitState.Closed f := hf
      cases h1
      omega
  | failed now =>
      intro f hf
      cases s with
      | HalfOpen =>
          exact absurd hf (by simp [onTrippableFailure])
      | Open t =>
          exact absurd hf (by simp [onTrippableFailure])
      | Closed g =>
          have hg := hs g rfl
          simp only [onTrippableFailure] at hf
          split_ifs at hf with hth
          · have h1 : CircuitState.Closed (g + 1)
                = CircuitState.Closed f := hf
            cases h1
            omega

/-- Claim C10: for every `maxFailures ≥ 1`, every state reachable from
`initialState` by `gate`, `onSuccess` and `onTrippableFailure` steps that
is of the form `Closed f` satisfies `0 ≤ f < maxFailures`; in particular
`Closed maxFailures` is unreachable, since the transition to Open fires
exactly when the count would reach the threshold. -/
theorem reachable_closed_bound (maxFailures : Int) (hmax : 1 ≤ maxFailures) :
    (∀ s : CircuitState, ReachableState maxFailures s →
        ∀ f : Int, s = CircuitState.Closed f → 0 ≤ f ∧ f < maxFailures)
    ∧ ¬ ReachableState maxFailures (CircuitState.Closed maxFailures) := by
  have hinv : ∀ s : CircuitState, ReachableState maxFailures s →
      ∀ f : Int, s = CircuitState.Closed f → 0 ≤ f ∧ f < maxFailures := by
    intro s hs
    induction hs with
    | refl =>
        intro f hf
        have h0 : CircuitState.Closed 0 = CircuitState.Closed f := hf
        cases h0
        omega
    | tail hsteps step ih =>
        exact closedBound_preserved maxFailures hmax _ _ step ih
  refine ⟨hinv, fun hreach => ?_⟩
  have := hinv _ hreach maxFailures rfl
  omega

/-- Witness for claim C10: with `maxFailures = 3` the initial state is reachable, its
failure count satisfies the bound, and `Closed 3` is unreachable. -/
theorem reachable_closed_bound_witness :
    (0 ≤ (0 : Int) ∧ (0 : Int) < 3)
    ∧ ¬ ReachableState 3 (CircuitState.Closed 3) :=
  ⟨(reachable_closed_bound 3 (by decide)).1 initialState
      Relation.ReflTransGen.refl 0 rfl,
   (reachable_closed_bound 3 (by decide)).2⟩

end StockCli
